import Mathlib

/-!
Verification of the tile-server core (tile geometry resolver, alpha
compositor, tile cache and HTTP response mapping) against its
specification.

The Rust source is shallowly embedded: `f64` arithmetic is modelled by
exact rational arithmetic (`ℚ`), machine integers (`u32`, `i32`, `usize`)
by `Nat`/`Int` with explicit wrapping (`% 2^w`) where the source can
overflow, and the raster / encoder collaborators by function parameters.
-/

namespace TileServer

/-- Axis-aligned rectangle, from `tile_grid.rs` (`struct Extent`). -/
structure Extent where
  xmin : ℚ
  ymin : ℚ
  xmax : ℚ
  ymax : ℚ
deriving Repr, DecidableEq

/-- A point lies in the closed extent. -/
def Extent.mem (e : Extent) (p : ℚ × ℚ) : Prop :=
  e.xmin ≤ p.1 ∧ p.1 ≤ e.xmax ∧ e.ymin ≤ p.2 ∧ p.2 ≤ e.ymax

instance (e : Extent) (p : ℚ × ℚ) : Decidable (e.mem p) := by
  unfold Extent.mem; infer_instance

/-- A point lies in the open interior of the extent. -/
def Extent.memOpen (e : Extent) (p : ℚ × ℚ) : Prop :=
  e.xmin < p.1 ∧ p.1 < e.xmax ∧ e.ymin < p.2 ∧ p.2 < e.ymax

instance (e : Extent) (p : ℚ × ℚ) : Decidable (e.memOpen p) := by
  unfold Extent.memOpen; infer_instance

/-- A geometrically valid extent (spec section 3). -/
def Extent.valid (e : Extent) : Prop := e.xmin < e.xmax ∧ e.ymin < e.ymax

instance (e : Extent) : Decidable e.valid := by
  unfold Extent.valid; infer_instance

/-- Wrapping reduction into `u32`, the type of tile column and row. -/
def u32wrapNat (n : Nat) : Nat := n % 2 ^ 32

/-- Wrapping reduction of a possibly negative value into `u32`. -/
def u32wrapInt (i : Int) : Nat := (i % 2 ^ 32).toNat

/-- The Rust expression `1 << z` at type `i32` (`z : u8`): the shift
amount is masked to `z % 32` and the result is interpreted as a signed
32-bit value, so `z % 32 = 31` yields `-2^31`. -/
def i32shl1 (z : Nat) : Int :=
  if z % 32 = 31 then -(2 ^ 31) else 2 ^ (z % 32)

/-- Round to nearest integer, ties away from zero: Rust `f64::round`. -/
def roundAway (q : ℚ) : Int :=
  if 0 ≤ q then ⌊q + 1 / 2⌋ else -⌊-q + 1 / 2⌋

/-- Rust `as usize` applied to a rounded `f64`: saturates below at 0. -/
def usizeOfRound (q : ℚ) : Nat := (roundAway q).toNat

/-- Wrapping `usize` subtraction (release-profile semantics of `a - b`). -/
def usizeSub (a b : Nat) : Nat := (((a : Int) - (b : Int)) % 2 ^ 64).toNat

/-- `struct TileGrid` from `tile_grid.rs`. -/
structure TileGrid where
  extent : Extent

/-- `TileGrid::new`. -/
def TileGrid.new (extent : Extent) : TileGrid := ⟨extent⟩

/-- `TileGrid::tile_extent` (`tile_grid.rs` lines 19-30).  `1 << z` is the
`i32` shift and `x + 1`, `y + 1` wrap at `u32::MAX`. -/
def TileGrid.tile_extent (g : TileGrid) (x y : Nat) (z : Nat) : Extent :=
  let tile_w := (g.extent.xmax - g.extent.xmin) / ((i32shl1 z : Int) : ℚ)
  let tile_h := (g.extent.ymax - g.extent.ymin) / ((i32shl1 z : Int) : ℚ)
  { xmin := g.extent.xmin + tile_w * (x : ℚ)
    ymin := g.extent.ymin + tile_h * (y : ℚ)
    xmax := g.extent.xmin + tile_w * (u32wrapNat (x + 1) : ℚ)
    ymax := g.extent.ymin + tile_h * (u32wrapNat (y + 1) : ℚ) }

/-- `TileGrid::web_mercator`. -/
def TileGrid.web_mercator : TileGrid :=
  TileGrid.new
    { xmin := -20037508.3427892480
      ymin := -20037508.3427892480
      xmax := 20037508.3427892480
      ymax := 20037508.3427892480 }

/-- `struct Config` from `config.rs`. -/
structure Config where
  tile_grid : TileGrid
  reverse_y : Bool
  tile_width : Nat
  tile_height : Nat

/-- The row flip `y = (1 << z) - 1 - y` from `main.rs` line 133, at type
`u32` (shift masked, subtraction wrapping). -/
def flipRow (z y : Nat) : Nat :=
  u32wrapInt ((2 ^ (z % 32) : Int) - 1 - (y : Int))

/-- The essentials of the GDAL geotransform used by `tile` (`main.rs`
lines 140-145): entries 0, 1, 3, 5. -/
structure GeoTransform where
  x_min : ℚ
  x_size : ℚ
  y_max : ℚ
  y_size : ℚ

/-- Model of an opened raster dataset: its geometry plus the raster-read
collaborator `rasterband(i).read_as(position, size, output_size)`,
returning a row-major `u8` buffer. -/
structure Dataset where
  geo : GeoTransform
  raster_w : Nat
  raster_h : Nat
  band : Nat → (Int × Int) → (Nat × Nat) → (Nat × Nat) → List Nat

/-- The image extent derived from the geotransform (`main.rs` 147-152). -/
def imageExtent (ds : Dataset) : Extent :=
  { xmin := ds.geo.x_min
    ymin := ds.geo.y_max + ds.geo.y_size * (ds.raster_h : ℚ)
    xmax := ds.geo.x_min + ds.geo.x_size * (ds.raster_w : ℚ)
    ymax := ds.geo.y_max }

/-- The intersection extent (`main.rs` 154-159). -/
def intersect (t i : Extent) : Extent :=
  { xmin := max t.xmin i.xmin
    ymin := max t.ymin i.ymin
    xmax := min t.xmax i.xmax
    ymax := min t.ymax i.ymax }

/-- All quantities computed by the window resolver (`main.rs` 166-212):
source read window, source-pixel paddings, destination paddings and
destination placement. -/
structure Resolved where
  win_x : Int
  win_y : Int
  win_w : Nat
  win_h : Nat
  off_left : Int
  off_top : Int
  off_right : Int
  off_bottom : Int
  ol : Nat
  ot : Nat
  or : Nat
  ob : Nat
  out_w : Nat
  out_h : Nat
deriving Repr, DecidableEq

/-- The window resolver, a direct translation of `main.rs` lines 154-212:
intersection and degeneracy check, fractional pixel bounds, rounded
source window, rounded source paddings, rescaled destination paddings and
the placement size computed with `usize` subtraction. -/
def resolveWindow (tile_extent image_extent : Extent) (x_size y_size : ℚ)
    (tile_width tile_height : Nat) : Option Resolved :=
  let ix := intersect tile_extent image_extent
  if ix.xmin ≥ ix.xmax ∨ ix.ymin ≥ ix.ymax then
    none
  else
    let px := (ix.xmin - image_extent.xmin) / x_size
    let py := (ix.ymin - image_extent.ymax) / y_size
    let px1 := (ix.xmax - image_extent.xmin) / x_size
    let py1 := (ix.ymax - image_extent.ymax) / y_size
    let src_width := (tile_extent.xmax - tile_extent.xmin) / x_size
    let src_height := (tile_extent.ymin - tile_extent.ymax) / y_size
    let rw := (tile_width : ℚ) / src_width
    let rh := (tile_height : ℚ) / src_height
    let off_left := roundAway ((ix.xmin - tile_extent.xmin) / x_size)
    let off_top := roundAway ((ix.ymax - tile_extent.ymax) / y_size)
    let off_right := roundAway ((tile_extent.xmax - ix.xmax) / x_size)
    let off_bottom := roundAway ((tile_extent.ymin - ix.ymin) / y_size)
    let ol := usizeOfRound ((off_left : ℚ) * rw)
    let ot := usizeOfRound ((off_top : ℚ) * rh)
    let or := usizeOfRound ((off_right : ℚ) * rw)
    let ob := usizeOfRound ((off_bottom : ℚ) * rh)
    some
      { win_x := roundAway px
        win_y := roundAway py1
        win_w := usizeOfRound (px1 - px)
        win_h := usizeOfRound (py - py1)
        off_left := off_left
        off_top := off_top
        off_right := off_right
        off_bottom := off_bottom
        ol := ol
        ot := ot
        or := or
        ob := ob
        out_w := usizeSub (usizeSub tile_width ol) or
        out_h := usizeSub (usizeSub tile_height ot) ob }

/-- In-place nodata update (`main.rs` 230-234):
`buf.data.iter().zip(alpha.iter_mut())` zeroes each alpha sample whose
band sample is 0; alpha samples beyond the buffer stay untouched. -/
def applyNodata : List Nat → List Nat → List Nat
  | _, [] => []
  | [], a :: rest => a :: rest
  | p :: ps, a :: rest => (if p = 0 then 0 else a) :: applyNodata ps rest

/-- The alpha buffer after the three color bands have been scanned:
starts fully opaque (`vec![255; n]`), then bands 1, 2, 3 in loop order. -/
def alphaBuffer (b1 b2 b3 : List Nat) (n : Nat) : List Nat :=
  applyNodata b3 (applyNodata b2 (applyNodata b1 (List.replicate n 255)))

/-- A band of the in-memory target image, as pixel values at `(x, y)`. -/
def Band := (Nat × Nat) → Nat

/-- `rasterband(i).write(position, size, buffer)`: write a row-major
buffer of the given size into a band at the given position. -/
def writeRect (b : Band) (pos size : Nat × Nat) (buf : List Nat) : Band :=
  fun p =>
    if pos.1 ≤ p.1 ∧ p.1 < pos.1 + size.1 ∧ pos.2 ≤ p.2 ∧ p.2 < pos.2 + size.2 then
      buf.getD ((p.2 - pos.2) * size.1 + (p.1 - pos.1)) 0
    else b p

/-- The 4-band target image created by the MEM driver (`main.rs`
216-241), all bands default-initialized to zero before the writes. -/
structure Target where
  width : Nat
  height : Nat
  b1 : Band
  b2 : Band
  b3 : Band
  b4 : Band

/-- The alpha compositor (`main.rs` 215-241): read bands 1-3 resampled to
the placement size, accumulate the nodata mask into the alpha buffer, and
write the three color bands plus the alpha band into the target at the
placement offset. -/
def composite (ds : Dataset) (tile_width tile_height : Nat) (r : Resolved) : Target :=
  let ipos : Int × Int := (r.win_x, r.win_y)
  let isize : Nat × Nat := (r.win_w, r.win_h)
  let osize : Nat × Nat := (r.out_w, r.out_h)
  let opos : Nat × Nat := (r.ol, r.ot)
  let buf1 := ds.band 1 ipos isize osize
  let buf2 := ds.band 2 ipos isize osize
  let buf3 := ds.band 3 ipos isize osize
  let alpha := alphaBuffer buf1 buf2 buf3 (r.out_w * r.out_h)
  let zero : Band := fun _ => 0
  { width := tile_width
    height := tile_height
    b1 := writeRect zero opos osize buf1
    b2 := writeRect zero opos osize buf2
    b3 := writeRect zero opos osize buf3
    b4 := writeRect zero opos osize alpha }

/-- `enum Error` from `error.rs`. -/
inductive Error where
  | Io
  | Nul
  | Gdal
  | Hyper
  | Join
  | OutsideBounds
  | Infallible
deriving Repr, DecidableEq

/-- The durable tile cache: one entry per key `(file, z, x, y)` (the key
of the cache file name `cache/{file}_{z}_{x}_{y}.png`), newest first. -/
def Cache := List ((String × Nat × Nat × Nat) × List Nat)

instance : DecidableEq Cache := by unfold Cache; infer_instance

/-- Look up the cache entry for a key, if present. -/
def cacheLookup (c : Cache) (k : String × Nat × Nat × Nat) : Option (List Nat) :=
  match c with
  | [] => none
  | (k', v) :: rest => if k' = k then some v else cacheLookup rest k

instance : DecidableEq (Except Error (List Nat)) := fun a b =>
  match a, b with
  | .ok u, .ok v =>
    if h : u = v then isTrue (by rw [h])
    else isFalse (by intro hh; cases hh; exact h rfl)
  | .error u, .error v =>
    if h : u = v then isTrue (by rw [h])
    else isFalse (by intro hh; cases hh; exact h rfl)
  | .ok _, .error _ => isFalse (by intro hh; cases hh)
  | .error _, .ok _ => isFalse (by intro hh; cases hh)

/-- The observable outcome of one `tile` request: the response, the cache
contents afterwards, and whether the raster collaborator was opened. -/
structure TileResult where
  response : Except Error (List Nat)
  cache : Cache
  rasterOpened : Bool
deriving DecidableEq

/-- The `tile` request handler (`main.rs` 123-250), with the PNG encoder
as the `encode` parameter.  The handler checks whether the cache file
exists but discards the result into `_exists` and hardcodes
`exists = false`, so the compute branch is always taken; the computed
tile is persisted at the key's location and the response re-reads it. -/
def tile (config : Config) (ds : Dataset) (encode : Target → List Nat)
    (cache : Cache) (file : String) (z x y : Nat) : TileResult :=
  let key := (file, z, x, y)
  let _exists := (cacheLookup cache key).isSome
  let exists1 := false
  if exists1 then
    match cacheLookup cache key with
    | some bytes => ⟨.ok bytes, cache, false⟩
    | none => ⟨.error .Io, cache, false⟩
  else
    let y1 := if config.reverse_y then flipRow z y else y
    let tileExtent := config.tile_grid.tile_extent x y1 z
    let imgExtent := imageExtent ds
    match resolveWindow tileExtent imgExtent ds.geo.x_size ds.geo.y_size
        config.tile_width config.tile_height with
    | none => ⟨.error .OutsideBounds, cache, true⟩
    | some r =>
      let target := composite ds config.tile_width config.tile_height r
      let bytes := encode target
      let cache1 : Cache := (key, bytes) :: cache
      match cacheLookup cache1 key with
      | some b => ⟨.ok b, cache1, true⟩
      | none => ⟨.error .Io, cache1, true⟩

/-- An HTTP response as far as the handlers shape one. -/
structure HttpResponse where
  status : Nat
  content_type : Option String
  body : List Nat
deriving Repr, DecidableEq

/-- `struct Png(Vec<u8>)` from `main.rs`. -/
structure Png where
  bytes : List Nat

/-- `impl IntoResponse for Png` (`main.rs` 109-121): the builder uses
`StatusCode::FOUND`, which is HTTP 302. -/
def Png.into_response (p : Png) : HttpResponse :=
  { status := 302, content_type := some "image/png", body := p.bytes }

/-- `impl IntoResponse for Error` (`error.rs` 85-101). -/
def Error.into_response (e : Error) : HttpResponse :=
  match e with
  | .OutsideBounds => { status := 404, content_type := none, body := [] }
  | _ => { status := 500, content_type := none, body := [] }

/-- How axum turns the handler's `Result` into a response. -/
def respond (r : Except Error Png) : HttpResponse :=
  match r with
  | .ok p => p.into_response
  | .error e => e.into_response

/-! Concrete fixtures used by individual witnesses and counterexamples. -/

/-- A 1x1 raster at origin `(0, 1)` with unit pixels whose bands all read
as the single sample `3`. -/
def dsUnit : Dataset := ⟨⟨0, 1, 1, -1⟩, 1, 1, fun _ _ _ _ => [3]⟩

/-- A unit configuration over the global extent `[0,1] x [0,1]` with a
1x1 tile. -/
def cfgUnit : Config := ⟨TileGrid.new ⟨0, 0, 1, 1⟩, false, 1, 1⟩

/-- A cache that already holds bytes `[7]` for the key `("f", 0, 0, 0)`. -/
def cachePre : Cache := [(("f", 0, 0, 0), [7])]

/-- A raster whose band 1 reads `[5]`, band 2 reads `[0]` and band 3
reads `[7]`: band 1 is nonzero where band 2 is zero. -/
def dsBands : Dataset :=
  ⟨⟨0, 1, 1, -1⟩, 1, 1, fun i _ _ _ => if i = 1 then [5] else if i = 2 then [0] else [7]⟩

/-- A resolved 1x1 placement at offset `(0, 0)` reading a 1x1 window. -/
def rUnit : Resolved := ⟨0, 0, 1, 1, 0, 0, 0, 0, 0, 0, 0, 0, 1, 1⟩

/-- A 1x1 raster lying at `[5,6] x [4,5]`, far from the unit tile grid. -/
def dsFar : Dataset := ⟨⟨5, 1, 5, -1⟩, 1, 1, fun _ _ _ _ => [3]⟩

/-- A 256x256-tile configuration over `[0,1] x [0,1]` with `reverse_y`. -/
def cfgFlip : Config := ⟨TileGrid.new ⟨0, 0, 1, 1⟩, true, 256, 256⟩

/-! Helper lemmas about rounding and wrapped arithmetic. -/

theorem roundAway_eq_of_nonneg {q : ℚ} {n : ℤ} (h0 : 0 ≤ q)
    (h1 : (n : ℚ) ≤ q + 1 / 2) (h2 : q + 1 / 2 < (n : ℚ) + 1) : roundAway q = n := by
  unfold roundAway
  rw [if_pos h0]
  exact Int.floor_eq_iff.mpr ⟨h1, h2⟩

theorem roundAway_zero : roundAway 0 = 0 :=
  roundAway_eq_of_nonneg le_rfl (by norm_num) (by norm_num)

theorem usizeOfRound_eq_of_nonneg {q : ℚ} {n : ℕ} (h0 : 0 ≤ q)
    (h1 : (n : ℚ) ≤ q + 1 / 2) (h2 : q + 1 / 2 < (n : ℚ) + 1) : usizeOfRound q = n := by
  unfold usizeOfRound
  rw [roundAway_eq_of_nonneg h0 (by exact_mod_cast h1) (by push_cast; exact_mod_cast h2)]
  simp

theorem usizeOfRound_zero : usizeOfRound 0 = 0 := by
  unfold usizeOfRound
  rw [roundAway_zero]
  rfl

theorem usizeSub_of_le {a b : Nat} (h : b ≤ a) (ha : a < 2 ^ 64) :
    usizeSub a b = a - b := by
  unfold usizeSub
  rw [Int.emod_eq_of_lt (by omega) (by omega)]
  omega

/-! Helper lemmas about the window resolver and the orchestrator. -/

/-- Unfolding of the window resolver in the non-degenerate case. -/
theorem resolveWindow_eq (T I : Extent) (sx sy : ℚ) (tw th : Nat)
    (hnd : ¬((intersect T I).xmin ≥ (intersect T I).xmax ∨
        (intersect T I).ymin ≥ (intersect T I).ymax)) :
    resolveWindow T I sx sy tw th =
      some
        { win_x := roundAway (((intersect T I).xmin - I.xmin) / sx)
          win_y := roundAway (((intersect T I).ymax - I.ymax) / sy)
          win_w := usizeOfRound (((intersect T I).xmax - I.xmin) / sx -
            ((intersect T I).xmin - I.xmin) / sx)
          win_h := usizeOfRound (((intersect T I).ymin - I.ymax) / sy -
            ((intersect T I).ymax - I.ymax) / sy)
          off_left := roundAway (((intersect T I).xmin - T.xmin) / sx)
          off_top := roundAway (((intersect T I).ymax - T.ymax) / sy)
          off_right := roundAway ((T.xmax - (intersect T I).xmax) / sx)
          off_bottom := roundAway ((T.ymin - (intersect T I).ymin) / sy)
          ol := usizeOfRound ((roundAway (((intersect T I).xmin - T.xmin) / sx) : ℚ) *
            ((tw : ℚ) / ((T.xmax - T.xmin) / sx)))
          ot := usizeOfRound ((roundAway (((intersect T I).ymax - T.ymax) / sy) : ℚ) *
            ((th : ℚ) / ((T.ymin - T.ymax) / sy)))
          or := usizeOfRound ((roundAway ((T.xmax - (intersect T I).xmax) / sx) : ℚ) *
            ((tw : ℚ) / ((T.xmax - T.xmin) / sx)))
          ob := usizeOfRound ((roundAway ((T.ymin - (intersect T I).ymin) / sy) : ℚ) *
            ((th : ℚ) / ((T.ymin - T.ymax) / sy)))
          out_w := usizeSub
            (usizeSub tw (usizeOfRound ((roundAway (((intersect T I).xmin - T.xmin) / sx) : ℚ) *
              ((tw : ℚ) / ((T.xmax - T.xmin) / sx)))))
            (usizeOfRound ((roundAway ((T.xmax - (intersect T I).xmax) / sx) : ℚ) *
              ((tw : ℚ) / ((T.xmax - T.xmin) / sx))))
          out_h := usizeSub
            (usizeSub th (usizeOfRound ((roundAway (((intersect T I).ymax - T.ymax) / sy) : ℚ) *
              ((th : ℚ) / ((T.ymin - T.ymax) / sy)))))
            (usizeOfRound ((roundAway ((T.ymin - (intersect T I).ymin) / sy) : ℚ) *
              ((th : ℚ) / ((T.ymin - T.ymax) / sy)))) } := by
  simp only [resolveWindow]
  rw [if_neg hnd]

/-- The window resolver signals nothing exactly on a degenerate
intersection. -/
theorem resolveWindow_none_iff (T I : Extent) (sx sy : ℚ) (tw th : Nat) :
    resolveWindow T I sx sy tw th = none ↔
      ((intersect T I).xmin ≥ (intersect T I).xmax ∨
        (intersect T I).ymin ≥ (intersect T I).ymax) := by
  by_cases h : (intersect T I).xmin ≥ (intersect T I).xmax ∨
      (intersect T I).ymin ≥ (intersect T I).ymax
  · simp only [resolveWindow]
    rw [if_pos h]
    simp [h]
  · rw [resolveWindow_eq T I sx sy tw th h]
    simp [h]

theorem cacheLookup_cons_self (k : String × Nat × Nat × Nat) (v : List Nat) (c : Cache) :
    cacheLookup ((k, v) :: c) k = some v := by
  unfold cacheLookup
  rw [if_pos rfl]

/-- Unfolding of `tile` when the window resolver signals OutsideBounds:
the request errors, the cache is untouched, the raster was opened. -/
theorem tile_outside (config : Config) (ds : Dataset) (encode : Target → List Nat)
    (cache : Cache) (file : String) (z x y : Nat)
    (h : resolveWindow
      (config.tile_grid.tile_extent x (if config.reverse_y then flipRow z y else y) z)
      (imageExtent ds) ds.geo.x_size ds.geo.y_size
      config.tile_width config.tile_height = none) :
    tile config ds encode cache file z x y = ⟨.error .OutsideBounds, cache, true⟩ := by
  simp only [tile, Bool.false_eq_true, if_false]
  split
  · rfl
  · rename_i r hr
    rw [h] at hr
    cases hr

/-- Unfolding of `tile` when the window resolver produces a window: the
tile is computed, persisted over the key and returned. -/
theorem tile_compute (config : Config) (ds : Dataset) (encode : Target → List Nat)
    (cache : Cache) (file : String) (z x y : Nat) (r : Resolved)
    (h : resolveWindow
      (config.tile_grid.tile_extent x (if config.reverse_y then flipRow z y else y) z)
      (imageExtent ds) ds.geo.x_size ds.geo.y_size
      config.tile_width config.tile_height = some r) :
    tile config ds encode cache file z x y =
      ⟨.ok (encode (composite ds config.tile_width config.tile_height r)),
        ((file, z, x, y), encode (composite ds config.tile_width config.tile_height r)) :: cache,
        true⟩ := by
  simp only [tile, Bool.false_eq_true, if_false]
  split
  · rename_i hr
    rw [h] at hr
    cases hr
  · rename_i r' hr
    rw [h] at hr
    cases hr
    rw [cacheLookup_cons_self]

/-! Helper lemmas about the alpha compositor. -/

theorem applyNodata_length (buf a : List Nat) :
    (applyNodata buf a).length = a.length := by
  induction buf generalizing a with
  | nil => cases a <;> rfl
  | cons p ps ih =>
    cases a with
    | nil => rfl
    | cons x rest => simp [applyNodata, ih]

theorem applyNodata_getD (buf a : List Nat) (i : Nat) (hi : i < a.length) :
    (applyNodata buf a).getD i 0 = if buf.getD i 1 = 0 then 0 else a.getD i 0 := by
  induction buf generalizing a i with
  | nil =>
    cases a with
    | nil => simp at hi
    | cons x rest => simp [applyNodata, List.getD_nil]
  | cons p ps ih =>
    cases a with
    | nil => simp at hi
    | cons x rest =>
      cases i with
      | zero => simp [applyNodata, List.getD_cons_zero]
      | succ j =>
        simp only [applyNodata, List.getD_cons_succ]
        exact ih rest j (by simpa using hi)

theorem getD_replicate_of_lt {a d n i : Nat} (hi : i < n) :
    (List.replicate n a).getD i d = a := by
  induction n generalizing i with
  | zero => omega
  | succ m ih =>
    cases i with
    | zero => rfl
    | succ j =>
      simp only [List.replicate, List.getD_cons_succ]
      exact ih (by omega)

/-- The alpha sample at index `i` is zero exactly when one of the three
band samples there is zero. -/
theorem alphaBuffer_getD (b1 b2 b3 : List Nat) (n i : Nat) (hi : i < n) :
    (alphaBuffer b1 b2 b3 n).getD i 0 =
      if b1.getD i 1 = 0 ∨ b2.getD i 1 = 0 ∨ b3.getD i 1 = 0 then 0 else 255 := by
  unfold alphaBuffer
  have l1 : (applyNodata b1 (List.replicate n 255)).length = n := by
    rw [applyNodata_length, List.length_replicate]
  have l2 : (applyNodata b2 (applyNodata b1 (List.replicate n 255))).length = n := by
    rw [applyNodata_length, l1]
  rw [applyNodata_getD _ _ _ (by rw [l2]; exact hi)]
  rw [applyNodata_getD _ _ _ (by rw [l1]; exact hi)]
  rw [applyNodata_getD _ _ _ (by rw [List.length_replicate]; exact hi)]
  rw [getD_replicate_of_lt hi]
  split_ifs <;> tauto

theorem writeRect_mem (b : Band) (pos size : Nat × Nat) (buf : List Nat)
    (p : Nat × Nat) (h1 : pos.1 ≤ p.1) (h2 : p.1 < pos.1 + size.1)
    (h3 : pos.2 ≤ p.2) (h4 : p.2 < pos.2 + size.2) :
    writeRect b pos size buf p = buf.getD ((p.2 - pos.2) * size.1 + (p.1 - pos.1)) 0 := by
  unfold writeRect
  rw [if_pos ⟨h1, h2, h3, h4⟩]

theorem rowmajor_lt {a b w h : Nat} (ha : a < h) (hb : b < w) :
    a * w + b < w * h := by
  calc a * w + b < a * w + w := by omega
    _ = (a + 1) * w := by ring
    _ ≤ h * w := Nat.mul_le_mul_right w ha
    _ = w * h := Nat.mul_comm h w

/-! Helper lemmas about the tile grid. -/

/-- For zooms up to 30 and indices whose successor does not wrap, the
tile extent is given by the exact power-of-two cell formula. -/
theorem tile_extent_formula (g : TileGrid) (x y z : Nat) (hz : z ≤ 30)
    (hx : x + 1 < 2 ^ 32) (hy : y + 1 < 2 ^ 32) :
    g.tile_extent x y z =
      { xmin := g.extent.xmin + (g.extent.xmax - g.extent.xmin) / 2 ^ z * (x : ℚ)
        ymin := g.extent.ymin + (g.extent.ymax - g.extent.ymin) / 2 ^ z * (y : ℚ)
        xmax := g.extent.xmin + (g.extent.xmax - g.extent.xmin) / 2 ^ z * ((x : ℚ) + 1)
        ymax := g.extent.ymin + (g.extent.ymax - g.extent.ymin) / 2 ^ z * ((y : ℚ) + 1) } := by
  have hzm : z % 32 = z := Nat.mod_eq_of_lt (by omega)
  have hs : i32shl1 z = 2 ^ z := by
    unfold i32shl1
    rw [hzm, if_neg (by omega)]
  simp only [TileGrid.tile_extent, u32wrapNat, hs, Nat.mod_eq_of_lt hx, Nat.mod_eq_of_lt hy,
    Extent.mk.injEq]
  push_cast
  refine ⟨rfl, rfl, rfl, rfl⟩

/-! Helper lemmas for the grid partition property, one axis at a time. -/

theorem grid_span (A B : ℚ) (N : Nat) (hN : 0 < N) :
    A + (B - A) / (N : ℚ) * (N : ℚ) = B := by
  have hNQ : ((N : ℚ)) ≠ 0 := by positivity
  field_simp

theorem grid_cover1D (A B : ℚ) (N : Nat) (hN : 0 < N) (hAB : A < B) (p : ℚ)
    (h0 : A ≤ p) (h1 : p ≤ B) :
    ∃ k : Nat, k < N ∧ A + (B - A) / (N : ℚ) * (k : ℚ) ≤ p ∧
      p ≤ A + (B - A) / (N : ℚ) * ((k : ℚ) + 1) := by
  have hNQ : (0 : ℚ) < (N : ℚ) := by exact_mod_cast hN
  have hW : (0 : ℚ) < (B - A) / (N : ℚ) := div_pos (sub_pos.mpr hAB) hNQ
  set W : ℚ := (B - A) / (N : ℚ) with hWdef
  set t : ℚ := (p - A) / W with htdef
  have hWt : W * t = p - A := by
    rw [htdef]
    field_simp
  have ht0 : 0 ≤ t := div_nonneg (by linarith) hW.le
  have htN : t ≤ (N : ℚ) := by
    rw [htdef, div_le_iff₀ hW]
    have : W * (N : ℚ) = B - A := by
      have := grid_span A B N hN
      linarith
    linarith
  have hfl0 : 0 ≤ ⌊t⌋ := Int.floor_nonneg.mpr ht0
  by_cases hcase : ⌊t⌋ < (N : ℤ)
  · refine ⟨⌊t⌋.toNat, by omega, ?_, ?_⟩
    · have hc : ((⌊t⌋.toNat : ℕ) : ℚ) = ((⌊t⌋ : ℤ) : ℚ) := by
        exact_mod_cast Int.toNat_of_nonneg hfl0
      rw [hc]
      have hle : ((⌊t⌋ : ℤ) : ℚ) ≤ t := Int.floor_le t
      have := mul_le_mul_of_nonneg_left hle hW.le
      linarith [hWt]
    · have hc : ((⌊t⌋.toNat : ℕ) : ℚ) = ((⌊t⌋ : ℤ) : ℚ) := by
        exact_mod_cast Int.toNat_of_nonneg hfl0
      rw [hc]
      have hlt : t < ((⌊t⌋ : ℤ) : ℚ) + 1 := Int.lt_floor_add_one t
      have := mul_le_mul_of_nonneg_left hlt.le hW.le
      linarith [hWt]
  · refine ⟨N - 1, by omega, ?_, ?_⟩
    · have htN' : (N : ℚ) ≤ t := by
        have : ((N : ℤ) : ℚ) ≤ ((⌊t⌋ : ℤ) : ℚ) := by exact_mod_cast not_lt.mp hcase
        have hle : ((⌊t⌋ : ℤ) : ℚ) ≤ t := Int.floor_le t
        push_cast at this
        linarith
      have hteq : t = (N : ℚ) := le_antisymm htN htN'
      have hpB : p = B := by
        have := hWt
        rw [hteq] at this
        have hsp := grid_span A B N hN
        linarith
      have hcast : ((N - 1 : ℕ) : ℚ) = (N : ℚ) - 1 := by
        have : (1 : ℕ) ≤ N := hN
        push_cast [Nat.cast_sub this]
        ring
      rw [hcast, hpB]
      nlinarith [grid_span A B N hN]
    · have hcast : ((N - 1 : ℕ) : ℚ) = (N : ℚ) - 1 := by
        have : (1 : ℕ) ≤ N := hN
        push_cast [Nat.cast_sub this]
        ring
      rw [hcast]
      have : (N : ℚ) - 1 + 1 = (N : ℚ) := by ring
      rw [this]
      rw [grid_span A B N hN]
      exact h1

theorem grid_disjoint1D (A B : ℚ) (N : Nat) (hN : 0 < N) (hAB : A < B)
    (k k' : Nat) (hkk : k < k') (p : ℚ)
    (h1 : p < A + (B - A) / (N : ℚ) * ((k : ℚ) + 1))
    (h2 : A + (B - A) / (N : ℚ) * (k' : ℚ) < p) : False := by
  have hNQ : (0 : ℚ) < (N : ℚ) := by exact_mod_cast hN
  have hW : (0 : ℚ) < (B - A) / (N : ℚ) := div_pos (sub_pos.mpr hAB) hNQ
  have hle : ((k : ℚ) + 1) ≤ (k' : ℚ) := by exact_mod_cast hkk
  have := mul_le_mul_of_nonneg_left hle hW.le
  linarith

/-! The claims. -/

/-- Claim C1 (code-bug evaluation): with the durable cache entry `[7]`
already stored for the key `("f", 0, 0, 0)`, the handler still opens the
raster (`rasterOpened = true`), recomputes the tile (here encoded as
`[9]`) and overwrites the entry, instead of returning the cached bytes
without invoking the compute path. -/
theorem C1_cache_bypassed :
    cacheLookup cachePre ("f", 0, 0, 0) = some [7] ∧
    tile cfgUnit dsUnit (fun _ => [9]) cachePre "f" 0 0 0 =
      ⟨.ok [9], (("f", 0, 0, 0), [9]) :: cachePre, true⟩ := by
  constructor
  · exact cacheLookup_cons_self _ _ _
  · have hT : cfgUnit.tile_grid.tile_extent 0
        (if cfgUnit.reverse_y then flipRow 0 0 else 0) 0 = ⟨0, 0, 1, 1⟩ := by
      norm_num [cfgUnit, TileGrid.tile_extent, TileGrid.new, i32shl1, u32wrapNat,
        Extent.mk.injEq]
    have hI : imageExtent dsUnit = ⟨0, 0, 1, 1⟩ := by
      norm_num [imageExtent, dsUnit, Extent.mk.injEq]
    have hnone : resolveWindow
        (cfgUnit.tile_grid.tile_extent 0 (if cfgUnit.reverse_y then flipRow 0 0 else 0) 0)
        (imageExtent dsUnit) dsUnit.geo.x_size dsUnit.geo.y_size
        cfgUnit.tile_width cfgUnit.tile_height ≠ none := by
      rw [hT, hI, Ne, resolveWindow_none_iff]
      norm_num [intersect, max_def, min_def]
    obtain ⟨r, hr⟩ := Option.ne_none_iff_exists'.mp hnone
    rw [tile_compute cfgUnit dsUnit (fun _ => [9]) cachePre "f" 0 0 0 r hr]

/-- Claim C3 counterexample: a successfully produced tile is returned
with HTTP status 302 (`StatusCode::FOUND`), not 200 as claimed. -/
theorem C3_counterexample :
    (respond (.ok ⟨[7]⟩)).status = 302 ∧ (respond (.ok ⟨[7]⟩)).status ≠ 200 := by
  exact ⟨rfl, by decide⟩

/-- Claim C3 amended: a successful tile response has status 302 (Found)
with image/png bytes; OutsideBounds maps to 404; every other failure maps
to 500. -/
theorem C3_amended :
    (∀ p : Png, respond (.ok p) = ⟨302, some "image/png", p.bytes⟩) ∧
    respond (.error .OutsideBounds) = ⟨404, none, []⟩ ∧
    (∀ e : Error, e ≠ .OutsideBounds → (respond (.error e)).status = 500) := by
  refine ⟨fun p => rfl, rfl, fun e he => ?_⟩
  cases e <;> first | rfl | exact absurd rfl he

/-- Witness for the amended C3 at the concrete error `Gdal`. -/
theorem C3_amended_witness :
    Error.Gdal ≠ Error.OutsideBounds ∧ (respond (.error .Gdal)).status = 500 :=
  ⟨by decide, C3_amended.2.2 .Gdal (by decide)⟩

/-- Claim C4 counterexample: for the intersection `[0.4,1.6] x [0,1]` of
tile and image extents (unit pixels, image origin at 0), the code's
window width is `round(px1 - px0) = round(1.2) = 1`, while the claimed
`round(px1) - round(px0) = 2 - 0 = 2`; the two disagree. -/
theorem C4_counterexample :
    ((resolveWindow ⟨2/5, 0, 8/5, 1⟩ ⟨0, 0, 2, 1⟩ 1 (-1) 256 256).map
      fun r => (r.win_x, r.win_w)) = some (0, 1) ∧
    roundAway ((8/5 - 0) / 1) - roundAway ((2/5 - 0) / 1) = 2 ∧ (1 : ℤ) ≠ 2 := by
  refine ⟨?_, ?_, by decide⟩
  · have hX : intersect ⟨2/5, 0, 8/5, 1⟩ ⟨0, 0, 2, 1⟩ = ⟨2/5, 0, 8/5, 1⟩ := by
      simp only [intersect, Extent.mk.injEq]
      norm_num [max_def, min_def]
    rw [resolveWindow_eq _ _ _ _ _ _ (by rw [hX]; norm_num)]
    rw [hX]
    simp only [Option.map_some]
    norm_num [Prod.ext_iff]
    constructor
    · exact roundAway_eq_of_nonneg (by norm_num) (by norm_num) (by norm_num)
    · exact usizeOfRound_eq_of_nonneg (by norm_num) (by norm_num) (by norm_num)
  · rw [show ((8 : ℚ)/5 - 0) / 1 = 8/5 by norm_num,
      show ((2 : ℚ)/5 - 0) / 1 = 2/5 by norm_num]
    rw [roundAway_eq_of_nonneg (q := 8/5) (n := 2) (by norm_num) (by norm_num) (by norm_num)]
    rw [roundAway_eq_of_nonneg (q := 2/5) (n := 0) (by norm_num) (by norm_num) (by norm_num)]
    decide

/-- Claim C4 amended: the source read window position is
`(round px0, round py1)` as claimed, but its size rounds the fractional
differences, `(round(px1 - px0), round(py0 - py1))`, instead of
differencing the independently rounded bounds. -/
theorem C4_amended (T I : Extent) (sx sy : ℚ) (tw th : Nat)
    (hnd : ¬((intersect T I).xmin ≥ (intersect T I).xmax ∨
        (intersect T I).ymin ≥ (intersect T I).ymax)) :
    ((resolveWindow T I sx sy tw th).map fun r => (r.win_x, r.win_y, r.win_w, r.win_h)) =
      some (roundAway (((intersect T I).xmin - I.xmin) / sx),
        roundAway (((intersect T I).ymax - I.ymax) / sy),
        (roundAway (((intersect T I).xmax - I.xmin) / sx -
          ((intersect T I).xmin - I.xmin) / sx)).toNat,
        (roundAway (((intersect T I).ymin - I.ymax) / sy -
          ((intersect T I).ymax - I.ymax) / sy)).toNat) := by
  rw [resolveWindow_eq T I sx sy tw th hnd]
  rfl

/-- Witness for the amended C4 at a concrete non-degenerate input. -/
theorem C4_amended_witness :
    ¬((intersect ⟨0, 0, 1, 1⟩ ⟨0, 0, 1, 1⟩).xmin ≥ (intersect ⟨0, 0, 1, 1⟩ ⟨0, 0, 1, 1⟩).xmax ∨
        (intersect ⟨0, 0, 1, 1⟩ ⟨0, 0, 1, 1⟩).ymin ≥ (intersect ⟨0, 0, 1, 1⟩ ⟨0, 0, 1, 1⟩).ymax) ∧
    ((resolveWindow ⟨0, 0, 1, 1⟩ ⟨0, 0, 1, 1⟩ 1 (-1) 1 1).map
        fun r => (r.win_x, r.win_y, r.win_w, r.win_h)) =
      some (roundAway (((intersect ⟨0, 0, 1, 1⟩ ⟨0, 0, 1, 1⟩).xmin - (0 : ℚ)) / 1),
        roundAway (((intersect ⟨0, 0, 1, 1⟩ ⟨0, 0, 1, 1⟩).ymax - (1 : ℚ)) / (-1)),
        (roundAway (((intersect ⟨0, 0, 1, 1⟩ ⟨0, 0, 1, 1⟩).xmax - (0 : ℚ)) / 1 -
          ((intersect ⟨0, 0, 1, 1⟩ ⟨0, 0, 1, 1⟩).xmin - (0 : ℚ)) / 1)).toNat,
        (roundAway (((intersect ⟨0, 0, 1, 1⟩ ⟨0, 0, 1, 1⟩).ymin - (1 : ℚ)) / (-1) -
          ((intersect ⟨0, 0, 1, 1⟩ ⟨0, 0, 1, 1⟩).ymax - (1 : ℚ)) / (-1))).toNat) := by
  have h : ¬((intersect ⟨0, 0, 1, 1⟩ ⟨0, 0, 1, 1⟩).xmin ≥
        (intersect (Extent.mk 0 0 1 1) ⟨0, 0, 1, 1⟩).xmax ∨
      (intersect ⟨0, 0, 1, 1⟩ ⟨0, 0, 1, 1⟩).ymin ≥
        (intersect (Extent.mk 0 0 1 1) ⟨0, 0, 1, 1⟩).ymax) := by
    norm_num [intersect, max_def, min_def]
  exact ⟨h, C4_amended ⟨0, 0, 1, 1⟩ ⟨0, 0, 1, 1⟩ 1 (-1) 1 1 h⟩

/-- Claim C10 (code-bug evaluation): for the non-degenerate intersection
of tile extent `[0,512] x [0,512]` with image extent
`[254.5, 255.5] x [0,512]` (unit pixels, 256x256 tile), the rounded
destination paddings are left 128 and right 129; their sum 257 exceeds
the tile width 256, and the `usize` placement-width subtraction
underflows, wrapping to `2^64 - 1`. -/
theorem C10_padding_underflow :
    ((resolveWindow ⟨0, 0, 512, 512⟩ ⟨509/2, 0, 511/2, 512⟩ 1 (-1) 256 256).map
      fun r => (r.ol, r.or, r.out_w)) = some (128, 129, 2 ^ 64 - 1) ∧
    ¬(128 + 129 ≤ 256) := by
  refine ⟨?_, by decide⟩
  have hX : intersect ⟨0, 0, 512, 512⟩ ⟨509/2, 0, 511/2, 512⟩ = ⟨509/2, 0, 511/2, 512⟩ := by
    simp only [intersect, Extent.mk.injEq]
    norm_num [max_def, min_def]
  rw [resolveWindow_eq _ _ _ _ _ _ (by rw [hX]; norm_num)]
  rw [hX]
  simp only [Option.map_some]
  norm_num [Prod.ext_iff]
  have h1 : roundAway ((509 : ℚ)/2) = 255 :=
    roundAway_eq_of_nonneg (by norm_num) (by norm_num) (by norm_num)
  have h2 : roundAway ((513 : ℚ)/2) = 257 :=
    roundAway_eq_of_nonneg (by norm_num) (by norm_num) (by norm_num)
  rw [h1, h2]
  have h3 : usizeOfRound (((255 : ℤ) : ℚ) * (1/2)) = 128 :=
    usizeOfRound_eq_of_nonneg (by norm_num) (by norm_num) (by norm_num)
  have h4 : usizeOfRound (((257 : ℤ) : ℚ) * (1/2)) = 129 :=
    usizeOfRound_eq_of_nonneg (by norm_num) (by norm_num) (by norm_num)
  rw [h3, h4]
  refine ⟨rfl, rfl, ?_⟩
  decide

/-- Claim C2 counterexample: with band samples 5, 0, 7 (bands 1, 2, 3) at
the placement pixel `(0,0)`, the output alpha sample is 0 although the
band-1 value 5 is nonzero: bands 2 and 3 do influence alpha. -/
theorem C2_counterexample :
    (composite dsBands 1 1 rUnit).b4 (0, 0) = 0 ∧
    (dsBands.band 1 (rUnit.win_x, rUnit.win_y) (rUnit.win_w, rUnit.win_h)
      (rUnit.out_w, rUnit.out_h)).getD 0 1 = 5 := by
  constructor
  · decide
  · decide

/-- Claim C2 amended: inside the placement rectangle the output alpha
sample is 0 exactly when at least one of the three resampled band values
at that pixel is 0, and 255 when all three are nonzero: the nodata test
is evaluated once per band from each of bands 1-3, not from band 1
alone. -/
theorem C2_amended (ds : Dataset) (tw th : Nat) (r : Resolved) (px py : Nat)
    (hx1 : r.ol ≤ px) (hx2 : px < r.ol + r.out_w)
    (hy1 : r.ot ≤ py) (hy2 : py < r.ot + r.out_h) :
    (composite ds tw th r).b4 (px, py) =
      if (ds.band 1 (r.win_x, r.win_y) (r.win_w, r.win_h) (r.out_w, r.out_h)).getD
            ((py - r.ot) * r.out_w + (px - r.ol)) 1 = 0 ∨
          (ds.band 2 (r.win_x, r.win_y) (r.win_w, r.win_h) (r.out_w, r.out_h)).getD
            ((py - r.ot) * r.out_w + (px - r.ol)) 1 = 0 ∨
          (ds.band 3 (r.win_x, r.win_y) (r.win_w, r.win_h) (r.out_w, r.out_h)).getD
            ((py - r.ot) * r.out_w + (px - r.ol)) 1 = 0
      then 0 else 255 := by
  simp only [composite]
  rw [writeRect_mem _ _ _ _ _ hx1 hx2 hy1 hy2]
  exact alphaBuffer_getD _ _ _ _ _ (rowmajor_lt (by omega) (by omega))

/-- Witness for the amended C2 at the concrete fixture: bands 5, 0, 7
give alpha 0 at pixel `(0,0)`. -/
theorem C2_amended_witness :
    (rUnit.ol ≤ 0 ∧ 0 < rUnit.ol + rUnit.out_w ∧
      rUnit.ot ≤ 0 ∧ 0 < rUnit.ot + rUnit.out_h) ∧
    (composite dsBands 1 1 rUnit).b4 (0, 0) = 0 := by
  refine ⟨by decide, ?_⟩
  rw [C2_amended dsBands 1 1 rUnit 0 0 (by decide) (by decide) (by decide) (by decide)]
  decide

/-- Claim C5: the tile operation signals OutsideBounds exactly when the
intersection of tile extent and image extent is degenerate
(`xmin >= xmax` or `ymin >= ymax`); in that case the cache is unchanged
and the outcome does not depend on the raster's band data (no pixel
computation). -/
theorem C5_outside_bounds (config : Config) (ds : Dataset) (enc : Target → List Nat)
    (cache : Cache) (file : String) (z x y : Nat) :
    ((tile config ds enc cache file z x y).response = .error .OutsideBounds ↔
      ((intersect (config.tile_grid.tile_extent x
            (if config.reverse_y then flipRow z y else y) z) (imageExtent ds)).xmin ≥
          (intersect (config.tile_grid.tile_extent x
            (if config.reverse_y then flipRow z y else y) z) (imageExtent ds)).xmax ∨
        (intersect (config.tile_grid.tile_extent x
            (if config.reverse_y then flipRow z y else y) z) (imageExtent ds)).ymin ≥
          (intersect (config.tile_grid.tile_extent x
            (if config.reverse_y then flipRow z y else y) z) (imageExtent ds)).ymax)) ∧
    (((intersect (config.tile_grid.tile_extent x
          (if config.reverse_y then flipRow z y else y) z) (imageExtent ds)).xmin ≥
        (intersect (config.tile_grid.tile_extent x
          (if config.reverse_y then flipRow z y else y) z) (imageExtent ds)).xmax ∨
      (intersect (config.tile_grid.tile_extent x
          (if config.reverse_y then flipRow z y else y) z) (imageExtent ds)).ymin ≥
        (intersect (config.tile_grid.tile_extent x
          (if config.reverse_y then flipRow z y else y) z) (imageExtent ds)).ymax) →
      (tile config ds enc cache file z x y).cache = cache ∧
      ∀ b2 : Nat → (Int × Int) → (Nat × Nat) → (Nat × Nat) → List Nat,
        tile config ⟨ds.geo, ds.raster_w, ds.raster_h, b2⟩ enc cache file z x y =
          tile config ds enc cache file z x y) := by
  constructor
  · constructor
    · intro h
      by_contra hnd
      have hne : resolveWindow
          (config.tile_grid.tile_extent x (if config.reverse_y then flipRow z y else y) z)
          (imageExtent ds) ds.geo.x_size ds.geo.y_size
          config.tile_width config.tile_height ≠ none := by
        intro hn
        exact hnd ((resolveWindow_none_iff _ _ _ _ _ _).mp hn)
      obtain ⟨r, hr⟩ := Option.ne_none_iff_exists'.mp hne
      rw [tile_compute config ds enc cache file z x y r hr] at h
      exact Except.noConfusion h
    · intro hdeg
      rw [tile_outside config ds enc cache file z x y
        ((resolveWindow_none_iff _ _ _ _ _ _).mpr hdeg)]
  · intro hdeg
    have hn := (resolveWindow_none_iff (config.tile_grid.tile_extent x
        (if config.reverse_y then flipRow z y else y) z) (imageExtent ds)
      ds.geo.x_size ds.geo.y_size config.tile_width config.tile_height).mpr hdeg
    constructor
    · rw [tile_outside config ds enc cache file z x y hn]
    · intro b2
      rw [tile_outside config ⟨ds.geo, ds.raster_w, ds.raster_h, b2⟩ enc cache file z x y hn,
        tile_outside config ds enc cache file z x y hn]

/-- Witness for C5 at a raster far outside the tile: the request fails
with OutsideBounds and writes no cache entry. -/
theorem C5_outside_bounds_witness :
    ((intersect (cfgUnit.tile_grid.tile_extent 0
          (if cfgUnit.reverse_y then flipRow 0 0 else 0) 0) (imageExtent dsFar)).xmin ≥
        (intersect (cfgUnit.tile_grid.tile_extent 0
          (if cfgUnit.reverse_y then flipRow 0 0 else 0) 0) (imageExtent dsFar)).xmax ∨
      (intersect (cfgUnit.tile_grid.tile_extent 0
          (if cfgUnit.reverse_y then flipRow 0 0 else 0) 0) (imageExtent dsFar)).ymin ≥
        (intersect (cfgUnit.tile_grid.tile_extent 0
          (if cfgUnit.reverse_y then flipRow 0 0 else 0) 0) (imageExtent dsFar)).ymax) ∧
    (tile cfgUnit dsFar (fun _ => [9]) [] "f" 0 0 0).response = .error .OutsideBounds ∧
    (tile cfgUnit dsFar (fun _ => [9]) [] "f" 0 0 0).cache = [] := by
  have hdeg : ((intersect (cfgUnit.tile_grid.tile_extent 0
        (if cfgUnit.reverse_y then flipRow 0 0 else 0) 0) (imageExtent dsFar)).xmin ≥
      (intersect (cfgUnit.tile_grid.tile_extent 0
        (if cfgUnit.reverse_y then flipRow 0 0 else 0) 0) (imageExtent dsFar)).xmax ∨
    (intersect (cfgUnit.tile_grid.tile_extent 0
        (if cfgUnit.reverse_y then flipRow 0 0 else 0) 0) (imageExtent dsFar)).ymin ≥
      (intersect (cfgUnit.tile_grid.tile_extent 0
        (if cfgUnit.reverse_y then flipRow 0 0 else 0) 0) (imageExtent dsFar)).ymax) := by
    norm_num [cfgUnit, dsFar, TileGrid.tile_extent, TileGrid.new, i32shl1, u32wrapNat,
      imageExtent, intersect, max_def, min_def]
  have h := C5_outside_bounds cfgUnit dsFar (fun _ => [9]) [] "f" 0 0 0
  exact ⟨hdeg, h.1.mpr hdeg, (h.2 hdeg).1⟩

/-- Claim C6: a tile extent fully contained in the image extent yields
zero source and destination padding on all four sides and placement
offset `(0, 0)` with size `(tile_width, tile_height)`. -/
theorem C6_contained (T I : Extent) (sx sy : ℚ) (tw th : Nat)
    (hc1 : I.xmin ≤ T.xmin) (hc2 : I.ymin ≤ T.ymin)
    (hc3 : T.xmax ≤ I.xmax) (hc4 : T.ymax ≤ I.ymax)
    (hT : T.valid) (htw : tw < 2 ^ 64) (hth : th < 2 ^ 64) :
    ((resolveWindow T I sx sy tw th).map fun r =>
        (r.off_left, r.off_top, r.off_right, r.off_bottom,
          r.ol, r.ot, r.or, r.ob, r.out_w, r.out_h)) =
      some (0, 0, 0, 0, 0, 0, 0, 0, tw, th) := by
  have hX : intersect T I = T := by
    simp only [intersect]
    rw [max_eq_left hc1, max_eq_left hc2, min_eq_left hc3, min_eq_left hc4]
  have hnd : ¬((intersect T I).xmin ≥ (intersect T I).xmax ∨
      (intersect T I).ymin ≥ (intersect T I).ymax) := by
    rw [hX]
    push_neg
    exact ⟨hT.1, hT.2⟩
  rw [resolveWindow_eq T I sx sy tw th hnd, hX]
  simp only [Option.map_some, sub_self, zero_div, roundAway_zero, Int.cast_zero,
    zero_mul, usizeOfRound_zero]
  rw [usizeSub_of_le (Nat.zero_le tw) htw, Nat.sub_zero,
    usizeSub_of_le (Nat.zero_le tw) htw, Nat.sub_zero,
    usizeSub_of_le (Nat.zero_le th) hth, Nat.sub_zero,
    usizeSub_of_le (Nat.zero_le th) hth, Nat.sub_zero]
  rfl

/-- Witness for C6: the unit tile inside a larger image produces zero
paddings and the full 256x256 placement. -/
theorem C6_contained_witness :
    ((-1 : ℚ) ≤ 0 ∧ (-1 : ℚ) ≤ 0 ∧ (1 : ℚ) ≤ 2 ∧ (1 : ℚ) ≤ 2) ∧
    ((resolveWindow ⟨0, 0, 1, 1⟩ ⟨-1, -1, 2, 2⟩ 1 (-1) 256 256).map fun r =>
        (r.off_left, r.off_top, r.off_right, r.off_bottom,
          r.ol, r.ot, r.or, r.ob, r.out_w, r.out_h)) =
      some (0, 0, 0, 0, 0, 0, 0, 0, 256, 256) :=
  ⟨by norm_num,
    C6_contained ⟨0, 0, 1, 1⟩ ⟨-1, -1, 2, 2⟩ 1 (-1) 256 256
      (by norm_num) (by norm_num) (by norm_num) (by norm_num)
      ⟨by norm_num, by norm_num⟩ (by norm_num) (by norm_num)⟩

/-- Claim C7 counterexample: at zoom 31 the `i32` shift `1 << 31`
overflows to `-2^31`, so the computed cell bound differs from the
claimed formula whose cell width is `(xmax - xmin) / 2^31`. -/
theorem C7_counterexample :
    ((TileGrid.new ⟨0, 0, 1, 1⟩).tile_extent 0 0 31).xmax ≠
      (0 : ℚ) + (1 - 0) / 2 ^ 31 * ((0 : ℚ) + 1) := by
  norm_num [TileGrid.tile_extent, TileGrid.new, i32shl1, u32wrapNat]

/-- Claim C7 amended: for zooms up to 30 (where the `i32` shift `1 << z`
equals `2^z`) and indices whose successor does not wrap `u32`, the tile
extent is the pure cell formula: cell width `(xmax - xmin) / 2^z`, cell
height analogous, bounds running from `min + cell * index` to
`min + cell * (index + 1)` on each axis, with no bounds checking on
column or row. -/
theorem C7_tile_extent_formula (g : TileGrid) (x y z : Nat) (hz : z ≤ 30)
    (hx : x + 1 < 2 ^ 32) (hy : y + 1 < 2 ^ 32) :
    g.tile_extent x y z =
      { xmin := g.extent.xmin + (g.extent.xmax - g.extent.xmin) / 2 ^ z * (x : ℚ)
        ymin := g.extent.ymin + (g.extent.ymax - g.extent.ymin) / 2 ^ z * (y : ℚ)
        xmax := g.extent.xmin + (g.extent.xmax - g.extent.xmin) / 2 ^ z * ((x : ℚ) + 1)
        ymax := g.extent.ymin + (g.extent.ymax - g.extent.ymin) / 2 ^ z * ((y : ℚ) + 1) } :=
  tile_extent_formula g x y z hz hx hy

/-- Witness for the amended C7 at zoom 2, cell (3, 1). -/
theorem C7_tile_extent_formula_witness :
    ((2 : Nat) ≤ 30 ∧ (3 : Nat) + 1 < 2 ^ 32 ∧ (1 : Nat) + 1 < 2 ^ 32) ∧
    (TileGrid.new ⟨0, 0, 1, 1⟩).tile_extent 3 1 2 =
      { xmin := (TileGrid.new ⟨0, 0, 1, 1⟩).extent.xmin +
          ((TileGrid.new ⟨0, 0, 1, 1⟩).extent.xmax -
            (TileGrid.new ⟨0, 0, 1, 1⟩).extent.xmin) / 2 ^ 2 * ((3 : ℕ) : ℚ)
        ymin := (TileGrid.new ⟨0, 0, 1, 1⟩).extent.ymin +
          ((TileGrid.new ⟨0, 0, 1, 1⟩).extent.ymax -
            (TileGrid.new ⟨0, 0, 1, 1⟩).extent.ymin) / 2 ^ 2 * ((1 : ℕ) : ℚ)
        xmax := (TileGrid.new ⟨0, 0, 1, 1⟩).extent.xmin +
          ((TileGrid.new ⟨0, 0, 1, 1⟩).extent.xmax -
            (TileGrid.new ⟨0, 0, 1, 1⟩).extent.xmin) / 2 ^ 2 * (((3 : ℕ) : ℚ) + 1)
        ymax := (TileGrid.new ⟨0, 0, 1, 1⟩).extent.ymin +
          ((TileGrid.new ⟨0, 0, 1, 1⟩).extent.ymax -
            (TileGrid.new ⟨0, 0, 1, 1⟩).extent.ymin) / 2 ^ 2 * (((1 : ℕ) : ℚ) + 1) } :=
  ⟨⟨by norm_num, by norm_num, by norm_num⟩,
    C7_tile_extent_formula (TileGrid.new ⟨0, 0, 1, 1⟩) 3 1 2
      (by norm_num) (by norm_num) (by norm_num)⟩

/-- Claim C9 counterexample: the out-of-range column `2^32 - 1` at zoom 0
makes `column + 1` wrap to 0, so the computed extent has `xmax < xmin`:
the operation completes but yields an extent that is not geometrically
valid. -/
theorem C9_counterexample :
    ¬(TileGrid.web_mercator.tile_extent (2 ^ 32 - 1) 0 0).valid := by
  intro hva
  have h1 := hva.1
  norm_num [TileGrid.tile_extent, TileGrid.web_mercator, TileGrid.new,
    i32shl1, u32wrapNat] at h1

/-- Claim C9 amended: column and row are not validated; for any indices,
in range or not, the operation (including the wrapping `u32` row flip
`2^zoom - 1 - row` when `reverse_y` is set) completes and yields a
geometrically valid though possibly meaningless extent, provided the
zoom is at most 30 and the incremented column and (flipped) row do not
wrap `u32`; when they do wrap (column `2^32 - 1`, or a flipped row of
`2^32 - 1`), the resulting extent is inverted instead of valid. -/
theorem C9_unvalidated_extent (cfg : Config) (x y z : Nat)
    (hg : cfg.tile_grid.extent.valid) (hz : z ≤ 30)
    (hx : x + 1 < 2 ^ 32)
    (hy : (if cfg.reverse_y then flipRow z y else y) + 1 < 2 ^ 32) :
    (cfg.tile_grid.tile_extent x (if cfg.reverse_y then flipRow z y else y) z).valid := by
  rw [tile_extent_formula cfg.tile_grid x _ z hz hx hy]
  have h2z : (0 : ℚ) < 2 ^ z := by positivity
  have hWx : (0 : ℚ) < (cfg.tile_grid.extent.xmax - cfg.tile_grid.extent.xmin) / 2 ^ z :=
    div_pos (sub_pos.mpr hg.1) h2z
  have hWy : (0 : ℚ) < (cfg.tile_grid.extent.ymax - cfg.tile_grid.extent.ymin) / 2 ^ z :=
    div_pos (sub_pos.mpr hg.2) h2z
  constructor
  · show cfg.tile_grid.extent.xmin +
        (cfg.tile_grid.extent.xmax - cfg.tile_grid.extent.xmin) / 2 ^ z * ((x : ℕ) : ℚ) <
      cfg.tile_grid.extent.xmin +
        (cfg.tile_grid.extent.xmax - cfg.tile_grid.extent.xmin) / 2 ^ z * (((x : ℕ) : ℚ) + 1)
    have := mul_lt_mul_of_pos_left (lt_add_one (((x : ℕ) : ℚ))) hWx
    linarith
  · show cfg.tile_grid.extent.ymin +
        (cfg.tile_grid.extent.ymax - cfg.tile_grid.extent.ymin) / 2 ^ z *
          (((if cfg.reverse_y then flipRow z y else y : ℕ) : ℚ)) <
      cfg.tile_grid.extent.ymin +
        (cfg.tile_grid.extent.ymax - cfg.tile_grid.extent.ymin) / 2 ^ z *
          (((if cfg.reverse_y then flipRow z y else y : ℕ) : ℚ) + 1)
    have := mul_lt_mul_of_pos_left
      (lt_add_one (((if cfg.reverse_y then flipRow z y else y : ℕ) : ℚ))) hWy
    linarith

/-- Witness for the amended C9: with `reverse_y` set, the out-of-range
row 7 at zoom 1 flips (wrapping) and still yields a valid extent. -/
theorem C9_unvalidated_extent_witness :
    (cfgFlip.tile_grid.extent.valid ∧ (1 : Nat) ≤ 30 ∧ (5 : Nat) + 1 < 2 ^ 32 ∧
      (if cfgFlip.reverse_y then flipRow 1 7 else 7) + 1 < 2 ^ 32) ∧
    (cfgFlip.tile_grid.tile_extent 5 (if cfgFlip.reverse_y then flipRow 1 7 else 7) 1).valid := by
  have hg : cfgFlip.tile_grid.extent.valid := by
    constructor <;> norm_num [cfgFlip, TileGrid.new]
  have hy : (if cfgFlip.reverse_y then flipRow 1 7 else 7) + 1 < 2 ^ 32 := by decide
  exact ⟨⟨hg, by norm_num, by norm_num, hy⟩,
    C9_unvalidated_extent cfgFlip 5 7 1 hg (by norm_num) (by norm_num) hy⟩

/-- Claim C8 counterexample: at zoom 31 the shift overflow gives every
cell a nonpositive `xmax`, so the interior point `(1/2, 1/2)` of the
global extent `[0,1] x [0,1]` lies in no tile cell whatsoever: the union
of `tile_extent` over the grid does not reconstruct the global extent. -/
theorem C8_counterexample :
    (TileGrid.new ⟨0, 0, 1, 1⟩).extent.mem (1/2, 1/2) ∧
    ∀ x y : Nat, ¬((TileGrid.new ⟨0, 0, 1, 1⟩).tile_extent x y 31).mem (1/2, 1/2) := by
  constructor
  · exact ⟨by norm_num [TileGrid.new], by norm_num [TileGrid.new],
      by norm_num [TileGrid.new], by norm_num [TileGrid.new]⟩
  · intro x y h
    have hm : (0 : ℚ) ≤ ((u32wrapNat (x + 1) : ℕ) : ℚ) := Nat.cast_nonneg _
    have hxmax : ((TileGrid.new ⟨0, 0, 1, 1⟩).tile_extent x y 31).xmax ≤ 0 := by
      show (TileGrid.new ⟨0, 0, 1, 1⟩).extent.xmin +
          ((TileGrid.new ⟨0, 0, 1, 1⟩).extent.xmax -
            (TileGrid.new ⟨0, 0, 1, 1⟩).extent.xmin) / ((i32shl1 31 : ℤ) : ℚ) *
          ((u32wrapNat (x + 1) : ℕ) : ℚ) ≤ 0
      have hsh : ((i32shl1 31 : ℤ) : ℚ) = -(2 ^ 31) := by norm_num [i32shl1]
      rw [hsh]
      norm_num [TileGrid.new]
    have h2 := h.2.1
    linarith

/-- Claim C8 amended: for zooms at most 30 (where the `i32` shift equals
`2^z`) and a valid global extent, the tile cells partition the global
extent exactly, over the rational-number model of the arithmetic: every
point of the global extent lies in some cell with indices below `2^z`,
distinct cells have disjoint interiors, adjacent cells share their
boundary exactly, and the outermost cell boundaries equal the global
extent's bounds. -/
theorem C8_partition (g : TileGrid) (z : Nat) (hz : z ≤ 30) (hg : g.extent.valid) :
    (∀ p : ℚ × ℚ, g.extent.mem p →
      ∃ x y : Nat, x < 2 ^ z ∧ y < 2 ^ z ∧ (g.tile_extent x y z).mem p) ∧
    (∀ x y x' y' : Nat, x < 2 ^ z → y < 2 ^ z → x' < 2 ^ z → y' < 2 ^ z →
      (x, y) ≠ (x', y') → ∀ p : ℚ × ℚ,
        ¬((g.tile_extent x y z).memOpen p ∧ (g.tile_extent x' y' z).memOpen p)) ∧
    (∀ x y : Nat, x + 1 < 2 ^ z → y < 2 ^ z →
      (g.tile_extent (x + 1) y z).xmin = (g.tile_extent x y z).xmax) ∧
    (∀ x y : Nat, x < 2 ^ z → y + 1 < 2 ^ z →
      (g.tile_extent x (y + 1) z).ymin = (g.tile_extent x y z).ymax) ∧
    (∀ y : Nat, y < 2 ^ z → (g.tile_extent 0 y z).xmin = g.extent.xmin) ∧
    (∀ x : Nat, x < 2 ^ z → (g.tile_extent x 0 z).ymin = g.extent.ymin) ∧
    (∀ y : Nat, y < 2 ^ z → (g.tile_extent (2 ^ z - 1) y z).xmax = g.extent.xmax) ∧
    (∀ x : Nat, x < 2 ^ z → (g.tile_extent x (2 ^ z - 1) z).ymax = g.extent.ymax) := by
  have hNpos : 0 < 2 ^ z := Nat.pow_pos (by norm_num)
  have hle : (2 : Nat) ^ z ≤ 2 ^ 30 := Nat.pow_le_pow_right (by norm_num) hz
  have h30 : (2 : Nat) ^ 30 < 2 ^ 32 := by norm_num
  have hsmall : ∀ k : Nat, k < 2 ^ z → k + 1 < 2 ^ 32 := by
    intro k hk
    omega
  have hcast : ((2 ^ z : ℕ) : ℚ) = (2 : ℚ) ^ z := by push_cast; ring
  refine ⟨?_, ?_, ?_, ?_, ?_, ?_, ?_, ?_⟩
  · -- coverage
    rintro ⟨px, py⟩ hm
    obtain ⟨k, hk, hk1, hk2⟩ := grid_cover1D g.extent.xmin g.extent.xmax (2 ^ z)
      hNpos hg.1 px hm.1 hm.2.1
    obtain ⟨l, hl, hl1, hl2⟩ := grid_cover1D g.extent.ymin g.extent.ymax (2 ^ z)
      hNpos hg.2 py hm.2.2.1 hm.2.2.2
    rw [hcast] at hk1 hk2 hl1 hl2
    refine ⟨k, l, hk, hl, ?_⟩
    rw [tile_extent_formula g k l z hz (hsmall k hk) (hsmall l hl)]
    exact ⟨hk1, hk2, hl1, hl2⟩
  · -- disjoint interiors
    intro x y x' y' hx hy hx' hy' hne p hboth
    obtain ⟨h1, h2⟩ := hboth
    rw [tile_extent_formula g x y z hz (hsmall x hx) (hsmall y hy)] at h1
    rw [tile_extent_formula g x' y' z hz (hsmall x' hx') (hsmall y' hy')] at h2
    have hxy : x ≠ x' ∨ y ≠ y' := by
      by_contra hc
      push_neg at hc
      exact hne (by rw [hc.1, hc.2])
    have hda := grid_disjoint1D g.extent.xmin g.extent.xmax (2 ^ z) hNpos hg.1
    have hdb := grid_disjoint1D g.extent.ymin g.extent.ymax (2 ^ z) hNpos hg.2
    rcases hxy with hxx | hyy
    · rcases Nat.lt_or_ge x x' with hlt | hge
      · exact hda x x' hlt p.1 (by rw [hcast]; exact h1.2.1) (by rw [hcast]; exact h2.1)
      · have hlt : x' < x := by omega
        exact hda x' x hlt p.1 (by rw [hcast]; exact h2.2.1) (by rw [hcast]; exact h1.1)
    · rcases Nat.lt_or_ge y y' with hlt | hge
      · exact hdb y y' hlt p.2 (by rw [hcast]; exact h1.2.2.2) (by rw [hcast]; exact h2.2.2.1)
      · have hlt : y' < y := by omega
        exact hdb y' y hlt p.2 (by rw [hcast]; exact h2.2.2.2) (by rw [hcast]; exact h1.2.2.1)
  · -- horizontal adjacency
    intro x y hx1 hy
    rw [tile_extent_formula g (x + 1) y z hz (by omega) (hsmall y hy),
      tile_extent_formula g x y z hz (by omega) (hsmall y hy)]
    push_cast
    ring
  · -- vertical adjacency
    intro x y hx hy1
    rw [tile_extent_formula g x (y + 1) z hz (hsmall x hx) (by omega),
      tile_extent_formula g x y z hz (hsmall x hx) (by omega)]
    push_cast
    ring
  · -- left boundary
    intro y hy
    rw [tile_extent_formula g 0 y z hz (by norm_num) (hsmall y hy)]
    push_cast
    ring
  · -- bottom boundary
    intro x hx
    rw [tile_extent_formula g x 0 z hz (hsmall x hx) (by norm_num)]
    push_cast
    ring
  · -- right boundary
    intro y hy
    rw [tile_extent_formula g (2 ^ z - 1) y z hz (by omega) (hsmall y hy)]
    have hs := grid_span g.extent.xmin g.extent.xmax (2 ^ z) hNpos
    rw [hcast] at hs
    have hc1 : (((2 ^ z - 1 : ℕ) : ℚ)) = (2 : ℚ) ^ z - 1 := by
      have h1 : (1 : ℕ) ≤ 2 ^ z := hNpos
      push_cast [Nat.cast_sub h1]
      ring
    show g.extent.xmin + (g.extent.xmax - g.extent.xmin) / 2 ^ z *
        (((2 ^ z - 1 : ℕ) : ℚ) + 1) = g.extent.xmax
    rw [hc1]
    have he : ((2 : ℚ) ^ z - 1 + 1) = (2 : ℚ) ^ z := by ring
    rw [he]
    exact hs
  · -- top boundary
    intro x hx
    rw [tile_extent_formula g x (2 ^ z - 1) z hz (hsmall x hx) (by omega)]
    have hs := grid_span g.extent.ymin g.extent.ymax (2 ^ z) hNpos
    rw [hcast] at hs
    have hc1 : (((2 ^ z - 1 : ℕ) : ℚ)) = (2 : ℚ) ^ z - 1 := by
      have h1 : (1 : ℕ) ≤ 2 ^ z := hNpos
      push_cast [Nat.cast_sub h1]
      ring
    show g.extent.ymin + (g.extent.ymax - g.extent.ymin) / 2 ^ z *
        (((2 ^ z - 1 : ℕ) : ℚ) + 1) = g.extent.ymax
    rw [hc1]
    have he : ((2 : ℚ) ^ z - 1 + 1) = (2 : ℚ) ^ z := by ring
    rw [he]
    exact hs

/-- Witness for the amended C8 at zoom 1 over the unit global extent:
the point `(1/2, 1/2)` is covered by a cell of the 2x2 grid. -/
theorem C8_partition_witness :
    ((1 : Nat) ≤ 30 ∧ (TileGrid.new ⟨0, 0, 1, 1⟩).extent.valid) ∧
    (∃ x y : Nat, x < 2 ^ 1 ∧ y < 2 ^ 1 ∧
      ((TileGrid.new ⟨0, 0, 1, 1⟩).tile_extent x y 1).mem (1/2, 1/2)) := by
  have hg : (TileGrid.new ⟨0, 0, 1, 1⟩).extent.valid :=
    ⟨by norm_num [TileGrid.new], by norm_num [TileGrid.new]⟩
  refine ⟨⟨by norm_num, hg⟩, ?_⟩
  exact (C8_partition (TileGrid.new ⟨0, 0, 1, 1⟩) 1 (by norm_num) hg).1 (1/2, 1/2)
    ⟨by norm_num [TileGrid.new], by norm_num [TileGrid.new],
      by norm_num [TileGrid.new], by norm_num [TileGrid.new]⟩

end TileServer
